import Mathlib

/-!
Verification of the conversation-orchestration core of the multi-agent
text-to-SQL system (`autogen_bird_sql`).  The Python sources are shallowly
embedded: message contents are `List Char`, regular-expression based
scraping is translated into explicit scanning functions, Python dicts with
aliasing (for the configuration module) are embedded with an explicit heap,
and the external collaborators (LLM role dispatch, `json.loads`, SQLite
execution) are parameters of the embedded operations.
-/

/-! ## Basic string machinery (Python `str` operations over `List Char`) -/

/-- The character class `\s` (and `[\s\n]`) of Python's `re` module, and the
set stripped by `str.strip()` for ASCII input. -/
def isWS (c : Char) : Bool :=
  c = ' ' || c = '\t' || c = '\n' || c = '\r' || c = '\x0b' || c = '\x0c'

/-- Python `str.lower()` (ASCII contents). -/
def lowerStr (s : List Char) : List Char := s.map Char.toLower

/-- Python `str.upper()` (ASCII contents). -/
def upperStr (s : List Char) : List Char := s.map Char.toUpper

/-- `startsWithL p l` : does `l` start with the pattern `p`? -/
def startsWithL : List Char → List Char → Bool
  | [], _ => true
  | _ :: _, [] => false
  | p :: ps, c :: cs => p = c && startsWithL ps cs

/-- `hasSub p l` : Python's `p in l` substring test. -/
def hasSub (p : List Char) : List Char → Bool
  | [] => startsWithL p []
  | c :: cs => startsWithL p (c :: cs) || hasSub p cs

/-- Suffix of `l` that follows the leftmost occurrence of `p`
(`none` when `p` does not occur). -/
def splitAtSub (p : List Char) : List Char → Option (List Char)
  | [] => if startsWithL p [] then some [] else none
  | c :: cs =>
      if startsWithL p (c :: cs) then some ((c :: cs).drop p.length)
      else splitAtSub p cs

/-- Python `str.strip()`. -/
def pyStrip (l : List Char) : List Char :=
  ((l.dropWhile isWS).reverse.dropWhile isWS).reverse

theorem startsWithL_iff (p l : List Char) :
    startsWithL p l = true ↔ p <+: l := by
  induction p generalizing l with
  | nil => simp [startsWithL]
  | cons x xs ih =>
    cases l with
    | nil => simp [startsWithL]
    | cons c cs =>
      simp only [startsWithL, Bool.and_eq_true, decide_eq_true_eq, ih]
      constructor
      · rintro ⟨rfl, t, rfl⟩; exact ⟨t, rfl⟩
      · rintro ⟨t, h⟩
        injection h with h1 h2
        exact ⟨h1, t, h2⟩

theorem hasSub_iff (p l : List Char) : hasSub p l = true ↔ p <:+: l := by
  induction l with
  | nil =>
    rw [hasSub, startsWithL_iff]
    constructor
    · rintro ⟨t, ht⟩
      exact ⟨[], t, ht⟩
    · rintro ⟨s, t, h⟩
      refine ⟨t, ?_⟩
      cases s with
      | nil => simpa using h
      | cons a s' => simp at h
  | cons c cs ih =>
    rw [hasSub]
    simp only [Bool.or_eq_true, startsWithL_iff, ih]
    constructor
    · rintro (⟨t, ht⟩ | ⟨s, t, h⟩)
      · exact ⟨[], t, ht⟩
      · exact ⟨c :: s, t, by rw [List.cons_append, List.cons_append, h]⟩
    · rintro ⟨s, t, h⟩
      cases s with
      | nil => exact Or.inl ⟨t, by simpa using h⟩
      | cons a s' =>
        injection h with _ h2
        exact Or.inr ⟨s', t, h2⟩

/-! ## Regex-capture helpers

The extractor's patterns all have the shape "literal label, then `\s*`,
then a lazy capture bounded by a lookahead".  `lazyCapture stop l` returns
the shortest leading segment of `l` after which `stop` holds (the semantics
of `(.*?)(?=...)` under `re.DOTALL`): since the lookaheads below always
hold at the end of the input, the capture always exists. -/

def lazyCapture (stop : List Char → Bool) : List Char → List Char
  | [] => []
  | c :: cs => if stop (c :: cs) then [] else c :: lazyCapture stop cs

/-- Python's `$` anchor (no `re.MULTILINE`): end of string, or just before a
single trailing newline. -/
def atDollar : List Char → Bool
  | [] => true
  | ['\n'] => true
  | _ => false

/-- The lookahead `(?=\n\n|$)`. -/
def lookNNorEnd (l : List Char) : Bool :=
  startsWithL ['\n', '\n'] l || atDollar l

/-- The lookahead `(?=\n\n|\n[A-Z]|$)` used by the `REPAIRED SQL QUERY:`
pattern. -/
def lookRepairEnd (l : List Char) : Bool :=
  startsWithL ['\n', '\n'] l ||
    (match l with
     | '\n' :: d :: _ => 'A' ≤ d && d ≤ 'Z'
     | _ => false) ||
    atDollar l

/-- Python `re.split` on a single-character class: split at every separator
character, keeping empty pieces (`re.split(r'[.!?]', s)` semantics). -/
def pySplit (p : Char → Bool) : List Char → List (List Char)
  | [] => [[]]
  | c :: cs =>
      if p c then [] :: pySplit p cs
      else
        match pySplit p cs with
        | t :: ts => (c :: t) :: ts
        | [] => [[c]]

/-- Python `" ".join(parts)`. -/
def joinSpace : List (List Char) → List Char
  | [] => []
  | [a] => a
  | a :: rest => a ++ ' ' :: joinSpace rest

/-- Try a priority-ordered list of extraction rules; the first rule that
matches wins (the `for pattern in patterns: ... break` idiom). -/
def firstSome {α : Type} (fs : List (List Char → Option α)) (x : List Char) :
    Option α :=
  match fs with
  | [] => none
  | f :: rest =>
      match f x with
      | some v => some v
      | none => firstSome rest x

/-! ## Roles and messages

`src/autogen_bird_sql/orchestrator.py` registers seven participants in the
group chat (`_create_agents` / `_setup_group_chat`). -/

/-- The closed set of participant roles. -/
inductive Agent
  | user
  | interpreter
  | schema
  | generator
  | executor
  | validator
  | repair
deriving DecidableEq, Repr

/-- One chat message: the speaking agent (the dict's `"name"`) and its
free-form text (the dict's `"content"`). -/
structure Msg where
  name : Agent
  content : List Char
deriving DecidableEq, Repr

/-- `MAX_REPAIR_ATTEMPTS` (orchestrator.py line 27).  The constant is
defined in the source but — as the theorems below record — never read
anywhere in the orchestration logic. -/
def MAX_REPAIR_ATTEMPTS : Nat := 3

/-- `MAX_CONSECUTIVE_AUTO_REPLY` (orchestrator.py line 28), passed to the
group chat as `max_round` and to `manager.run` as `max_turns`. -/
def MAX_CONSECUTIVE_AUTO_REPLY : Nat := 10

/-! ## The Speaker Selector's own SQL pattern

`select_next_speaker` checks the Generator's message against
`r"```(?:sql)?[\s\n]*(SELECT[\s\S]*?)[\s\n]*```"` with `re.IGNORECASE`;
the content is lowercased first, so the literals match in lowercase.  The
trailing `[\s\S]*?[\s\n]*` of the pattern absorbs any gap, so the closing
fence is just a later occurrence of three backticks. -/

/-- After an opening fence and the optional `sql` tag: whitespace, then
`select`, then a closing fence somewhere later. -/
def fenceTail (l : List Char) : Bool :=
  let r := l.dropWhile isWS
  startsWithL "select".toList r && hasSub "```".toList (r.drop 6)

/-- The body that may follow an opening ``` fence: with or without the
`sql` tag. -/
def fenceBody (l : List Char) : Bool :=
  fenceTail l || (startsWithL "sql".toList l && fenceTail (l.drop 3))

/-- `re.search` of the Selector's SQL pattern over (already lowercased)
content: scan every position for an opening fence with a matching body. -/
def hasSqlFence : List Char → Bool
  | [] => false
  | c :: cs =>
      (startsWithL "```".toList (c :: cs) && fenceBody ((c :: cs).drop 3)) ||
        hasSqlFence cs

/-! ## The Speaker Selector

Direct translation of the closure `select_next_speaker` defined inside
`_setup_group_chat` (orchestrator.py lines 130-189).  The Python closure
receives the running message list and the `sender` agent; it returns the
next agent, or `None` to end the conversation.  The source lowercases the
last message's content once, and then (redundantly) calls `.lower()` again
in the executor/validator/repair branches; the redundant call is kept. -/

def select_next_speaker (messages : List Msg) (sender : Agent) : Option Agent :=
  match messages.getLast? with
  | none => some Agent.interpreter
  | some last =>
      let last_content := lowerStr last.content
      match sender with
      | Agent.user => some Agent.interpreter
      | Agent.interpreter => some Agent.schema
      | Agent.schema => some Agent.generator
      | Agent.generator =>
          if hasSqlFence last_content then some Agent.executor
          else some Agent.interpreter
      | Agent.executor =>
          if hasSub "error".toList (lowerStr last_content) then some Agent.repair
          else some Agent.validator
      | Agent.validator =>
          if hasSub "validation: pass".toList (lowerStr last_content) then none
          else if hasSub "validation: fail".toList (lowerStr last_content) then
            some Agent.repair
          else some Agent.repair
      | Agent.repair =>
          if hasSub "repaired sql query".toList (lowerStr last_content) then
            some Agent.generator
          else some Agent.generator

/-! ## The Result Extractor's patterns

`_extract_results` (orchestrator.py lines 207-288) scrapes the chat history
with `re.search(pattern, content, re.DOTALL)` — case-sensitively.  Each
pattern below is translated into an explicit capture function returning the
text of group 1 (`none` when the pattern does not match the message). -/

/-- A pattern of the shape `LABEL\s*(.*?)(?=LOOKAHEAD)`: it matches iff the
label occurs, and captures from after the greedy whitespace run up to the
first position where the lookahead holds. -/
def labelCapture (label : List Char) (stop : List Char → Bool)
    (content : List Char) : Option (List Char) :=
  (splitAtSub label content).map fun rest =>
    lazyCapture stop (rest.dropWhile isWS)

/-- The tail `(.*?)\s*\x60\x60\x60` of the fenced patterns: the shortest
capture after which (skipping whitespace) a closing fence starts.  `none`
when no closing fence exists. -/
def capUntilTicks (l : List Char) : Option (List Char) :=
  if startsWithL "```".toList (l.dropWhile isWS) then some []
  else
    match l with
    | [] => none
    | c :: cs => (capUntilTicks cs).map (c :: ·)

/-- Pattern 1, `r"SQL QUERY:\s*(.*?)(?=\n\n|$)"`. -/
def patSqlQuery (content : List Char) : Option (List Char) :=
  labelCapture "SQL QUERY:".toList lookNNorEnd content

/-- Pattern 2, `r"```sql\s*(.*?)\s*```"`. -/
def patFencedSql (content : List Char) : Option (List Char) :=
  (splitAtSub "```sql".toList content).bind fun rest =>
    capUntilTicks (rest.dropWhile isWS)

/-- Pattern 3, `r"```\s*(SELECT.*?)\s*```"`.  `re.search` retries later
fence positions when an earlier one is not followed by `SELECT` or has no
closing fence. -/
def patFencedSelect : List Char → Option (List Char)
  | [] => none
  | c :: cs =>
      (if startsWithL "```".toList (c :: cs) then
        (let r := ((c :: cs).drop 3).dropWhile isWS
         if startsWithL "SELECT".toList r then
           (capUntilTicks (r.drop 6)).map fun cap => "SELECT".toList ++ cap
         else none)
      else none) <|> patFencedSelect cs

/-- Pattern 4, `r"REPAIRED SQL QUERY:\s*(.*?)(?=\n\n|\n[A-Z]|$)"`. -/
def patRepairedSql (content : List Char) : Option (List Char) :=
  labelCapture "REPAIRED SQL QUERY:".toList lookRepairEnd content

/-- The priority-ordered `sql_patterns` list, with the
`sql_match.group(1).strip()` cleanup applied to the winner. -/
def msgSql (content : List Char) : Option (List Char) :=
  (firstSome [patSqlQuery, patFencedSql, patFencedSelect, patRepairedSql]
      content).map pyStrip

/-- Exec pattern 1, `r"EXECUTION RESULTS:\s*(.*?)(?=\n\n|$)"`. -/
def patExecResults (content : List Char) : Option (List Char) :=
  labelCapture "EXECUTION RESULTS:".toList lookNNorEnd content

/-- The tail `(\{.*?\})(?=\n\n|$)` after `RESULT:\s*`: a brace, then the
shortest run ending with a brace after which the lookahead holds. -/
def lazyToBrace : List Char → Option (List Char)
  | [] => none
  | c :: cs =>
      if c = '\x7d' && lookNNorEnd cs then some ['\x7d']
      else (lazyToBrace cs).map (c :: ·)

/-- Exec pattern 2, `r"RESULT:\s*(\{.*?\})(?=\n\n|$)"`, scanning later
label occurrences when an earlier one carries no braced payload. -/
def patResultBrace : List Char → Option (List Char)
  | [] => none
  | c :: cs =>
      (if startsWithL "RESULT:".toList (c :: cs) then
        match ((c :: cs).drop 7).dropWhile isWS with
        | '\x7b' :: rest => (lazyToBrace rest).map fun t => '\x7b' :: t
        | _ => none
      else none) <|> patResultBrace cs

/-- The `exec_patterns` list, in order. -/
def msgExec (content : List Char) : Option (List Char) :=
  firstSome [patExecResults, patResultBrace] content

/-- A validation pattern `LABEL\s*(PASS|FAIL)(?:\s*(.*?))?(?=\n\n|$)`:
group 1 is reported as `true` for `PASS` and `false` for `FAIL`; group 2 is
the (possibly empty) explanation text.  Later label occurrences are tried
when one is not followed by `PASS`/`FAIL`. -/
def patValidTag (label : List Char) : List Char → Option (Bool × List Char)
  | [] => none
  | c :: cs =>
      (if startsWithL label (c :: cs) then
        (let r := ((c :: cs).drop label.length).dropWhile isWS
         if startsWithL "PASS".toList r then
           some (true, lazyCapture lookNNorEnd ((r.drop 4).dropWhile isWS))
         else if startsWithL "FAIL".toList r then
           some (false, lazyCapture lookNNorEnd ((r.drop 4).dropWhile isWS))
         else none)
      else none) <|> patValidTag label cs

/-- The `validation_patterns` list, in order. -/
def msgValid (content : List Char) : Option (Bool × List Char) :=
  firstSome
    [patValidTag "VALIDATION:".toList, patValidTag "VALIDATION STATUS:".toList]
    content

/-- The `error_patterns` list, in order. -/
def msgErr (content : List Char) : Option (List Char) :=
  (firstSome
      [labelCapture "SQL ERROR:".toList lookNNorEnd,
       labelCapture "ERROR:".toList lookNNorEnd,
       labelCapture "ERROR ANALYSIS:".toList lookNNorEnd]
      content).map pyStrip

/-! ## Structured values and the JSON collaborator

`_extract_results` feeds captured execution text to `json.loads`, an
external library routine.  The parse is a parameter
`jp : List Char → Option Jv` of the embedded extractor; `Jv` is the type of
structured (map/array) values it can produce. -/

/-- Structured values as produced by a JSON parse. -/
inductive Jv
  | null
  | jbool (b : Bool)
  | jnum (n : Int)
  | jstr (s : List Char)
  | jarr (xs : List Jv)
  | jobj (kvs : List (List Char × Jv))
deriving Repr

/-- A concrete sample of the `json.loads` collaborator used by the concrete
runs below: it genuinely parses (flat) arrays of decimal integers, e.g.
`[1, 2]`, and rejects everything else — exactly as `json.loads` does on
those inputs. -/
def digitsVal (l : List Char) : Option (Int × List Char) :=
  let ds := l.takeWhile Char.isDigit
  if ds.isEmpty then none
  else
    some
      (ds.foldl (fun a c => a * 10 + ((c.toNat : Int) - ('0'.toNat : Int))) 0,
        l.dropWhile Char.isDigit)

/-- Elements of a bracketed integer list: after the first number, zero or
more `, number` groups, then `]` and end of input. -/
def jsonDemoItems : Nat → List Char → Option (List Int)
  | _, [] => none
  | fuel + 1, l =>
      match digitsVal (l.dropWhile isWS) with
      | some (n, rest) =>
          (match (rest.dropWhile isWS) with
           | ',' :: more => (jsonDemoItems fuel more).map fun ns => n :: ns
           | ']' :: fin => if (fin.dropWhile isWS) = [] then some [n] else none
           | _ => none)
      | none => none
  | 0, _ => none

/-- See `jsonDemoItems`; parses `[n, n, ...]` (or `[]`). -/
def jsonDemo (s : List Char) : Option Jv :=
  match s.dropWhile isWS with
  | '[' :: rest =>
      (match rest.dropWhile isWS with
       | ']' :: fin => if (fin.dropWhile isWS) = [] then some (Jv.jarr []) else none
       | _ =>
           (jsonDemoItems rest.length rest).map fun ns =>
             Jv.jarr (ns.map Jv.jnum))
  | _ => none

/-! ## The Result Extractor's merge over the conversation

The `results` dict of `_extract_results`: each field is filled at most once
(`if results[...] is None` guards), scanning messages in order. -/

/-- The running result of `_extract_results`. -/
structure Extracted where
  sql : Option (List Char)
  execution_results : Option Jv
  validation_status : Option (List Char)
  error_message : Option (List Char)
  raw_output : Option (List Char)
deriving Repr

/-- The initial `results` dict (all fields unset; `raw_output` not yet a
key). -/
def initExtracted : Extracted := ⟨none, none, none, none, none⟩

/-- The SQL-field update for one message (orchestrator.py lines 247-254). -/
def stepSql (st : Extracted) (content : List Char) : Extracted :=
  match st.sql with
  | some _ => st
  | none =>
      match msgSql content with
      | some v => { st with sql := some v }
      | none => st

/-- The execution-results update for one message (lines 256-267): on a JSON
parse failure the raw text is kept instead — and only if no raw text was
kept before. -/
def stepExec (jp : List Char → Option Jv) (st : Extracted)
    (content : List Char) : Extracted :=
  match st.execution_results with
  | some _ => st
  | none =>
      match msgExec content with
      | none => st
      | some g =>
          match jp (pyStrip g) with
          | some v => { st with execution_results := some v }
          | none =>
              match st.raw_output with
              | some _ => st
              | none => { st with raw_output := some (pyStrip g) }

/-- The validation-status update for one message (lines 269-278).  A truthy
group 2 also (re)writes `error_message`, without a `None` guard. -/
def stepValid (st : Extracted) (content : List Char) : Extracted :=
  match st.validation_status with
  | some _ => st
  | none =>
      match msgValid content with
      | none => st
      | some (pf, g2) =>
          let st2 :=
            { st with
                validation_status :=
                  some (if pf then "PASS".toList else "FAIL".toList) }
          if g2.isEmpty then st2
          else { st2 with error_message := some (pyStrip g2) }

/-- The error-message update for one message (lines 280-286). -/
def stepErr (st : Extracted) (content : List Char) : Extracted :=
  match st.error_message with
  | some _ => st
  | none =>
      match msgErr content with
      | some v => { st with error_message := some v }
      | none => st

/-- Processing of a single message of the history, in source order:
SQL, execution results, validation status, error message. -/
def stepMsg (jp : List Char → Option Jv) (st : Extracted) (m : Msg) :
    Extracted :=
  stepErr (stepValid (stepExec jp (stepSql st m.content) m.content) m.content)
    m.content

/-- `_extract_results` (orchestrator.py lines 207-288), as a fold of the
per-message update over the chat history. -/
def _extract_results (jp : List Char → Option Jv) (history : List Msg) :
    Extracted :=
  history.foldl (stepMsg jp) initExtracted

/-! ## The Validator's verdict checker

`_check_validation_verdict` (`src/autogen_bird_sql/agents/result_validator.py`
lines 88-125) reduces a validator response to a Boolean: `True` for pass,
`False` for fail.  There is no third outcome. -/

/-- `pass_markers = ["PASS", "CORRECT", "VALID", "SUCCESS"]`. -/
def pass_markers : List (List Char) :=
  ["PASS".toList, "CORRECT".toList, "VALID".toList, "SUCCESS".toList]

/-- `fail_markers = ["FAIL", "INCORRECT", "INVALID", "ERROR"]`. -/
def fail_markers : List (List Char) :=
  ["FAIL".toList, "INCORRECT".toList, "INVALID".toList, "ERROR".toList]

/-- `sum(1 for marker in markers if marker in text)`. -/
def countMarkers (markers : List (List Char)) (text : List Char) : Nat :=
  (markers.filter fun m => hasSub m text).length

/-- The sentence separators of `re.split(r'[.!?]', response)`. -/
def isSentenceSep (c : Char) : Bool :=
  c = '.' || c = '!' || c = '?'

/-- `sentences[-3:] if len(sentences) >= 3 else sentences`, joined with
`" "` and uppercased: the conclusion window of the heuristic. -/
def conclusionWindow (response : List Char) : List Char :=
  let sentences := pySplit isSentenceSep response
  let lastS :=
    if sentences.length ≥ 3 then sentences.drop (sentences.length - 3)
    else sentences
  upperStr (joinSpace lastS)

/-- `_check_validation_verdict(response)`. -/
def _check_validation_verdict (response : List Char) : Bool :=
  let ru := upperStr response
  if hasSub "VALIDATION: PASS".toList ru then true
  else if hasSub "VALIDATION: FAIL".toList ru then false
  else
    let pass_count := countMarkers pass_markers ru
    let fail_count := countMarkers fail_markers ru
    if (pass_count > 0 && fail_count > 0) ||
        (pass_count = 0 && fail_count = 0) then
      let last_text := conclusionWindow response
      let pass_in_conclusion := pass_markers.any fun m => hasSub m last_text
      let fail_in_conclusion := fail_markers.any fun m => hasSub m last_text
      if pass_in_conclusion && !fail_in_conclusion then true
      else if fail_in_conclusion && !pass_in_conclusion then false
      else decide (pass_count > fail_count)
    else decide (pass_count > 0)

/-- The three-valued verdict named by the specification. -/
inductive Verdict
  | pass
  | fail
  | unknown
deriving DecidableEq, Repr

/-- Modelled from the spec: the claimed verdict extraction — "an explicit
VALIDATION: PASS/FAIL marker takes precedence; absent that, scan a bounded
window of terminal sentences for positive/negative sentiment markers and
pick the side with strictly more markers; ties or complete absence resolve
to Unknown".  Stated only for comparison with the source's
`_check_validation_verdict`. -/
def specVerdictClaimed (response : List Char) : Verdict :=
  let ru := upperStr response
  if hasSub "VALIDATION: PASS".toList ru then Verdict.pass
  else if hasSub "VALIDATION: FAIL".toList ru then Verdict.fail
  else
    let window := conclusionWindow response
    let pc := countMarkers pass_markers window
    let fc := countMarkers fail_markers window
    if pc > fc then Verdict.pass
    else if fc > pc then Verdict.fail
    else Verdict.unknown

/-! ## The group-chat driver

`process_question` runs the conversation through `autogen`'s
`GroupChat`/`GroupChatManager` (external to this repository), configured by
`_setup_group_chat` with `max_round = MAX_CONSECUTIVE_AUTO_REPLY` and
`speaker_selection_method = select_next_speaker`. -/

/-- The `initial_message` f-string of `process_question`
(orchestrator.py lines 327-333). -/
def initial_message (question : List Char) : List Char :=
  "USER QUESTION: ".toList ++ question ++
    ("\n            \nThis is a database question that needs to be answered by converting it to SQL and executing the query.\nFirst, interpret the question to understand what it\x27s asking for.\nThen, retrieve the database schema to understand the available tables and columns.\nNext, generate a valid SQL query based on the question and schema.\nFinally, execute the query and validate the results.").toList

/-- Modelled from the spec: the round loop of the external `GroupChat`
driver (§4.5 of the specification: "select next role; if `None`, stop;
otherwise dispatch the role, append the resulting message, increment the
round counter; stop when the counter reaches the hard maximum").  The
selector and the round cap are the source's `select_next_speaker` and
`MAX_CONSECUTIVE_AUTO_REPLY`; role dispatch is the external collaborator
`outputs`, mapping (message index, role) to the produced text. -/
def runChatAux (outputs : Nat → Agent → List Char) :
    Nat → List Msg → Agent → List Msg
  | 0, msgs, _ => msgs
  | fuel + 1, msgs, sender =>
      match select_next_speaker msgs sender with
      | none => msgs
      | some a =>
          runChatAux outputs fuel (msgs ++ [⟨a, outputs msgs.length a⟩]) a

/-- Modelled from the spec: a whole conversation — the user's initial
message (round 1) followed by at most `MAX_CONSECUTIVE_AUTO_REPLY - 1`
selected turns. -/
def runChat (outputs : Nat → Agent → List Char) (question : List Char) :
    List Msg :=
  runChatAux outputs (MAX_CONSECUTIVE_AUTO_REPLY - 1)
    [⟨Agent.user, initial_message question⟩] Agent.user

/-! ## `process_question`

Translation of `process_question` (orchestrator.py lines 290-410).  The
group-chat phase is an `Except`-parameter (its error is the exception text
caught by the `except Exception` handler).  `SQLExecutorAgent.execute_sql`
(sql_executor.py line 36) and `AutoRepairAgent.repair_sql` (auto_repair.py
line 43) are `async def` coroutine functions that the synchronous
`process_question` calls *without* `await` (orchestrator.py lines 368,
382, 391): the calls bind coroutine objects, never their result dicts, so
these two are not result-returning collaborators of the embedded
operation — see `directFallback` for the exception this raises. -/

/-- The `result` dict built by `process_question` — the run artifact
returned to the caller.  `execution_results` can only ever hold a JSON
value scraped from the chat: the direct-execution branch that would store
an executor result dict is unreachable (see `directFallback`). -/
structure RunResult where
  question : List Char
  sql : Option (List Char)
  execution_results : Option Jv
  validation_status : List Char
  error_message : Option (List Char)
deriving Repr

/-- The external collaborators of one `process_question` call: the
group-chat phase, the `json.loads` parse, and the database location.
`execute_sql`/`repair_sql` do not appear: being un-awaited coroutines,
their results are never obtained by the source. -/
structure Env where
  chat : Except (List Char) (List Msg)
  jp : List Char → Option Jv
  db_path : List Char
  dbExists : Bool

/-- Python truthiness of an optional string (`if result["sql"]:`). -/
def truthyStr : Option (List Char) → Bool
  | some s => !s.isEmpty
  | none => false

/-- Python truthiness of a parsed JSON value. -/
def truthyJv : Jv → Bool
  | Jv.null => false
  | Jv.jbool b => b
  | Jv.jnum n => decide (n ≠ 0)
  | Jv.jstr s => !s.isEmpty
  | Jv.jarr xs => !xs.isEmpty
  | Jv.jobj kvs => !kvs.isEmpty

/-- `\w` of `re.search(r"database (\w+)", question.lower())`. -/
def wordChar (c : Char) : Bool := c.isAlphanum || c = '_'

/-- Scan for `database ` followed by at least one word character; capture
the maximal word run. -/
def dbIdScan : List Char → Option (List Char)
  | [] => none
  | c :: cs =>
      (if startsWithL "database ".toList (c :: cs) then
        (let w := ((c :: cs).drop 9).takeWhile wordChar
         if w.isEmpty then none else some w)
      else none) <|> dbIdScan cs

/-- The database id extracted from the question (default `world_1`). -/
def dbIdOf (question : List Char) : List Char :=
  (dbIdScan (lowerStr question)).getD "world_1".toList

/-- `os.path.join(self.db_path, f"{db_id}.sqlite")` (for a directory path
without a trailing separator). -/
def dbFilePath (db_path question : List Char) : List Char :=
  db_path ++ '/' :: (dbIdOf question ++ ".sqlite".toList)

/-- `str(e)` for the `AttributeError` raised at orchestrator.py line 371:
`execution_result` is a coroutine object (the un-awaited `execute_sql`
call of line 368), so the `.get` attribute does not exist.  The text is
CPython\x27s `AttributeError` message. -/
def coroutineGetError : List Char :=
  "\x27coroutine\x27 object has no attribute \x27get\x27".toList

/-- The direct-execution fallback (orchestrator.py lines 358-404), entered
when extraction produced (truthy) SQL but no execution payload.  In the
database-exists branch, line 368 binds the coroutine returned by the
un-awaited `execute_sql`, and `execution_result.get("success", False)` at
line 371 raises `AttributeError` — outside the inner `try`, which wraps
only lines 376-402 — so control lands in the outer `except Exception`
handler (line 406), which records `Error: {str(e)}` on the result carrying
the already-extracted fields.  The written success/repair branches are
therefore unreachable and `repair_sql` is never invoked; the second
component counts its invocations (identically 0). -/
def directFallback (env : Env) (question : List Char) (r : RunResult) :
    RunResult × Nat :=
  match r.sql, r.execution_results with
  | some s, none =>
      if s.isEmpty then (r, 0)
      else if env.dbExists then
        ({ r with
            error_message := some ("Error: ".toList ++ coroutineGetError) }, 0)
      else
        ({ r with
            error_message :=
              some ("Database file not found: ".toList ++
                dbFilePath env.db_path question) }, 0)
  | _, _ => (r, 0)

/-- The result dict after the group chat succeeded and the truthy
extracted fields were copied over the initial
`{"validation_status": "FAIL", ...}` dict (orchestrator.py lines
299-356). -/
def chatResult (env : Env) (question : List Char) (history : List Msg) :
    RunResult :=
  let result0 : RunResult := ⟨question, none, none, "FAIL".toList, none⟩
  let extracted := _extract_results env.jp history
  let r1 :=
    { result0 with
        sql := if truthyStr extracted.sql then extracted.sql else none }
  let r2 :=
    { r1 with
        execution_results :=
          match extracted.execution_results with
          | some v => if truthyJv v then some v else none
          | none => none }
  let r3 :=
    { r2 with
        validation_status :=
          match extracted.validation_status with
          | some v => if v.isEmpty then r2.validation_status else v
          | none => r2.validation_status }
  { r3 with
      error_message :=
        if truthyStr extracted.error_message then extracted.error_message
        else none }

/-- `process_question` (orchestrator.py lines 290-410): initialize the
result dict, run the group chat, copy the truthy extracted fields, then
take the direct-execution fallback.  The second component counts
`repair_sql` invocations.  An exception raised during the group-chat phase
is modelled by `env.chat = Except.error e`; the exception the fallback
itself raises (the un-awaited coroutine) is reproduced inside
`directFallback` — both land in the same `except Exception` handler. -/
def process_question (env : Env) (question : List Char) : RunResult × Nat :=
  match env.chat with
  | Except.error e =>
      ({ question := question, sql := none, execution_results := none,
         validation_status := "FAIL".toList,
         error_message := some ("Error: ".toList ++ e) }, 0)
  | Except.ok history =>
      directFallback env question (chatResult env question history)

/-! ## The configuration module

`src/autogen_bird_sql/config.py` works with module-level mutable dicts:
`DEFAULT_CONFIG` holds nested dicts (`llm`, `database`, `agents`), and
`load_config` starts from `DEFAULT_CONFIG.copy()` — a *shallow* copy — and
then deep-updates it.  Python's reference semantics for dicts is embedded
with an explicit heap: dict-valued entries are references into a store. -/

/-- Primitive (immutable) configuration values.  Decimal literals such as
`0.0`/`1.0` in `DEFAULT_CONFIG` are carried as their literal text — they
are never computed with. -/
inductive PVal
  | pstr (s : List Char)
  | pint (n : Int)
  | pbool (b : Bool)
  | pfloat (lit : List Char)
deriving DecidableEq, Repr

/-- A stored value: a primitive, a reference to a dict in the heap, or a
list (the source never mutates a config list, so lists are inlined). -/
inductive CVal
  | prim (p : PVal)
  | ref (d : Nat)
  | arr (xs : List CVal)
deriving Repr

/-- A Python dict: an insertion-ordered association list. -/
abbrev PyDict : Type := List (List Char × CVal)

/-- Lookup (`d[k]` / `k in d`). -/
def dictGet : PyDict → List Char → Option CVal
  | [], _ => none
  | (k, v) :: rest, key => if k = key then some v else dictGet rest key

/-- Assignment `d[k] = val`: replace in place, or append a new binding. -/
def dictSet : PyDict → List Char → CVal → PyDict
  | [], key, val => [(key, val)]
  | (k, v) :: rest, key, val =>
      if k = key then (k, val) :: rest else (k, v) :: dictSet rest key val

/-- `d.update(u)` (shallow). -/
def dictUpdate (d u : PyDict) : PyDict :=
  u.foldl (fun acc kv => dictSet acc kv.1 kv.2) d

/-- The heap of live dict objects, indexed by allocation order. -/
structure Heap where
  store : List PyDict
deriving Repr

/-- Dereference a dict object. -/
def Heap.getDict (h : Heap) (d : Nat) : PyDict := (h.store.drop d).headD []

/-- Overwrite a dict object in place. -/
def Heap.setDict (h : Heap) (d : Nat) (v : PyDict) : Heap := ⟨h.store.set d v⟩

/-- Allocate a fresh dict object. -/
def Heap.alloc (h : Heap) (v : PyDict) : Heap × Nat :=
  (⟨h.store ++ [v]⟩, h.store.length)

/-- `d.copy()`: a new dict with the same entries; dict-valued entries keep
their references (the shallow-copy semantics at the heart of claim C9). -/
def Heap.copyDict (h : Heap) (d : Nat) : Heap × Nat := h.alloc (h.getDict d)

/-- A freshly parsed configuration-file tree (`json.load`/`yaml.safe_load`
build new objects, so the update argument is a pure value, not heap
references). -/
inductive UVal
  | uprim (p : PVal)
  | udict (es : List (List Char × UVal))
deriving Repr

mutual

/-- Allocate heap objects for a parsed subtree assigned into a dict. -/
def injectUVal (h : Heap) : UVal → Heap × CVal
  | UVal.uprim p => (h, CVal.prim p)
  | UVal.udict es =>
      let (h2, entries) := injectEntries h es
      let (h3, i) := h2.alloc entries
      (h3, CVal.ref i)

/-- See `injectUVal`. -/
def injectEntries (h : Heap) : List (List Char × UVal) → Heap × PyDict
  | [] => (h, [])
  | (k, v) :: rest =>
      let (h2, cv) := injectUVal h v
      let (h3, ds) := injectEntries h2 rest
      (h3, (k, cv) :: ds)

end

mutual

/-- `_deep_update(d, u)` (config.py lines 190-206): iterate over `u`;
recurse into `d[k]` in place when both sides hold dicts, otherwise assign.
The recursion into `d[k]` follows the stored *reference* — this mutates
whatever dict object `d[k]` aliases. -/
def deepUpdateEntries (h : Heap) (dId : Nat) :
    List (List Char × UVal) → Heap
  | [] => h
  | (k, v) :: rest => deepUpdateEntries (deepUpdateOne h dId k v) dId rest

/-- One `for k, v in u.items()` step of `_deep_update`. -/
def deepUpdateOne (h : Heap) (dId : Nat) (k : List Char) : UVal → Heap
  | UVal.uprim p => h.setDict dId (dictSet (h.getDict dId) k (CVal.prim p))
  | UVal.udict es =>
      match dictGet (h.getDict dId) k with
      | some (CVal.ref sub) => deepUpdateEntries h sub es
      | _ =>
          let (h2, cv) := injectUVal h (UVal.udict es)
          h2.setDict dId (dictSet (h2.getDict dId) k cv)

end

/-- The module-level `DEFAULT_CONFIG["llm"]` dict (config.py lines 15-22),
allocated at heap index 1. -/
def llmDefaults : PyDict :=
  [("provider".toList, CVal.prim (PVal.pstr "anthropic".toList)),
   ("model".toList, CVal.prim (PVal.pstr "claude-3-7-sonnet-20250219".toList)),
   ("temperature".toList, CVal.prim (PVal.pfloat "0.0".toList)),
   ("max_tokens".toList, CVal.prim (PVal.pint 1000)),
   ("top_p".toList, CVal.prim (PVal.pfloat "1.0".toList)),
   ("timeout".toList, CVal.prim (PVal.pint 120))]

/-- `DEFAULT_CONFIG["database"]` (lines 23-25), heap index 2. -/
def databaseDefaults : PyDict :=
  [("path".toList, CVal.prim (PVal.pstr "./data/databases".toList))]

/-- `DEFAULT_CONFIG["agents"]` (lines 26-29), heap index 3. -/
def agentsDefaults : PyDict :=
  [("max_repair_attempts".toList, CVal.prim (PVal.pint 3)),
   ("max_consecutive_replies".toList, CVal.prim (PVal.pint 10))]

/-- The dict object `DEFAULT_CONFIG` itself (lines 14-31), heap index 0:
its nested entries are references to the three dicts above. -/
def DEFAULT_CONFIG : PyDict :=
  [("llm".toList, CVal.ref 1),
   ("database".toList, CVal.ref 2),
   ("agents".toList, CVal.ref 3),
   ("debug_mode".toList, CVal.prim (PVal.pbool false))]

/-- The heap as it stands after the `config` module is imported. -/
def initHeap : Heap := ⟨[DEFAULT_CONFIG, llmDefaults, databaseDefaults, agentsDefaults]⟩

/-- The heap id of the module-level `DEFAULT_CONFIG` object. -/
def DEFAULT_CONFIG_id : Nat := 0

/-- The heap id of the module-level `DEFAULT_CONFIG["llm"]` object. -/
def llmDefaults_id : Nat := 1

/-- Read a string entry of a heap dict, with a fallback. -/
def readStr (h : Heap) (d : Nat) (k dflt : List Char) : List Char :=
  match dictGet (h.getDict d) k with
  | some (CVal.prim (PVal.pstr s)) => s
  | _ => dflt

/-- `get_llm_config(config)` (config.py lines 55-86), with both API-key
environment variables absent: reads the model name from `config["llm"]`
and allocates `{"config_list": [{"model": model, "api_key": ""}]}`. -/
def get_llm_config (h : Heap) (cfg : Nat) : Heap × Nat :=
  let model :=
    match dictGet (h.getDict cfg) "llm".toList with
    | some (CVal.ref l) =>
        readStr h l "model".toList "claude-3-7-sonnet-20250219".toList
    | _ => "claude-3-7-sonnet-20250219".toList
  let (h2, entry) :=
    h.alloc
      [("model".toList, CVal.prim (PVal.pstr model)),
       ("api_key".toList, CVal.prim (PVal.pstr []))]
  h2.alloc [("config_list".toList, CVal.arr [CVal.ref entry])]

/-- `get_database_config(config)` (lines 88-109) with the `BIRD_SQL_DB_PATH`
environment variable absent: a fresh copy of the module-level database
defaults, shallow-updated from `config["database"]`. -/
def get_database_config (h : Heap) (cfg : Nat) : Heap × Nat :=
  let base :=
    match dictGet (h.getDict DEFAULT_CONFIG_id) "database".toList with
    | some (CVal.ref i) => h.getDict i
    | _ => []
  let merged :=
    match dictGet (h.getDict cfg) "database".toList with
    | some (CVal.ref i) => dictUpdate base (h.getDict i)
    | _ => base
  h.alloc merged

/-- `create_agent_configs(config)` (lines 111-163) for configurations
without an `agent_overrides` section: per-agent dicts sharing one freshly
built llm config, plus the repair/group-chat limits read from the merged
agents settings. -/
def create_agent_configs (h : Heap) (cfg : Nat) : Heap × Nat :=
  let (h1, llmCfg) := get_llm_config h cfg
  let base :=
    match dictGet (h1.getDict DEFAULT_CONFIG_id) "agents".toList with
    | some (CVal.ref i) => h1.getDict i
    | _ => []
  let agent_config :=
    match dictGet (h1.getDict cfg) "agents".toList with
    | some (CVal.ref i) => dictUpdate base (h1.getDict i)
    | _ => base
  let plain : PyDict := [("llm_config".toList, CVal.ref llmCfg)]
  let (h2, aInterp) := h1.alloc plain
  let (h3, aSchema) := h2.alloc plain
  let (h4, aGen) := h3.alloc plain
  let (h5, aExec) := h4.alloc plain
  let (h6, aValid) := h5.alloc plain
  let (h7, aRepair) :=
    h6.alloc
      (plain ++
        [("max_repair_attempts".toList,
          (dictGet agent_config "max_repair_attempts".toList).getD
            (CVal.prim (PVal.pint 3)))])
  let (h8, aGroup) :=
    h7.alloc
      [("max_consecutive_replies".toList,
        (dictGet agent_config "max_consecutive_replies".toList).getD
          (CVal.prim (PVal.pint 10)))]
  h8.alloc
    [("interpreter".toList, CVal.ref aInterp),
     ("schema".toList, CVal.ref aSchema),
     ("generator".toList, CVal.ref aGen),
     ("executor".toList, CVal.ref aExec),
     ("validator".toList, CVal.ref aValid),
     ("repair".toList, CVal.ref aRepair),
     ("group_chat".toList, CVal.ref aGroup)]

/-- `load_config(config_path)` (config.py lines 165-188): a *shallow* copy
of `DEFAULT_CONFIG`, deep-updated from the parsed file when a path is
given, then extended with the three derived entries.  Returns the new heap
and the id of the returned config dict. -/
def load_config (h : Heap) (file : Option (List (List Char × UVal))) :
    Heap × Nat :=
  let (h1, cfg) := h.copyDict DEFAULT_CONFIG_id
  let h2 :=
    match file with
    | some u => deepUpdateEntries h1 cfg u
    | none => h1
  let (h3, llmCfg) := get_llm_config h2 cfg
  let h4 := h3.setDict cfg (dictSet (h3.getDict cfg) "llm_config".toList (CVal.ref llmCfg))
  let (h5, dbCfg) := get_database_config h4 cfg
  let h6 := h5.setDict cfg (dictSet (h5.getDict cfg) "database_config".toList (CVal.ref dbCfg))
  let (h7, agCfg) := create_agent_configs h6 cfg
  let h8 := h7.setDict cfg (dictSet (h7.getDict cfg) "agent_configs".toList (CVal.ref agCfg))
  (h8, cfg)

/-! ## Helper lemmas: characters and substrings -/

theorem char_toNat_ofNat_valid (n : Nat) (h : n.isValidChar) :
    (Char.ofNat n).toNat = n := by
  simp [Char.ofNat, h]
  rfl

theorem toLower_toLower (c : Char) : c.toLower.toLower = c.toLower := by
  unfold Char.toLower
  simp only []
  by_cases h : c.toNat ≥ 65 ∧ c.toNat ≤ 90
  · rw [if_pos h]
    have hv : (c.toNat + 32).isValidChar := by
      left
      omega
    rw [char_toNat_ofNat_valid _ hv]
    rw [if_neg (by omega)]
  · rw [if_neg h, if_neg h]

theorem lowerStr_idem (s : List Char) : lowerStr (lowerStr s) = lowerStr s := by
  simp only [lowerStr, List.map_map]
  exact List.map_congr_left fun c _ => toLower_toLower c

theorem hasSub_of_sub {p l₁ l₂ : List Char} (h : l₁ <:+: l₂)
    (hp : hasSub p l₁ = true) : hasSub p l₂ = true := by
  rw [hasSub_iff] at hp ⊢
  exact hp.trans h

theorem upperStr_mono {l₁ l₂ : List Char} (h : l₁ <:+: l₂) :
    upperStr l₁ <:+: upperStr l₂ := by
  obtain ⟨s, t, rfl⟩ := h
  exact ⟨upperStr s, upperStr t, by simp [upperStr]⟩

theorem startsWithL_append_cons (m u v : List Char) (c : Char) :
    c ∉ m → startsWithL m (u ++ c :: v) = true → startsWithL m u = true := by
  induction m generalizing u with
  | nil => intro _ _; rfl
  | cons x ms ih =>
    intro hc
    cases u with
    | nil =>
      intro h
      rw [List.nil_append, startsWithL, Bool.and_eq_true, decide_eq_true_eq] at h
      exact absurd (h.1 ▸ List.mem_cons_self x ms) hc
    | cons y us =>
      intro h
      rw [List.cons_append, startsWithL, Bool.and_eq_true] at h
      rw [startsWithL, Bool.and_eq_true]
      exact ⟨h.1, ih us (fun hmem => hc (List.mem_cons_of_mem x hmem)) h.2⟩

theorem hasSub_append_cons {m a b : List Char} {c : Char} (hc : c ∉ m) :
    hasSub m (a ++ c :: b) = true → hasSub m a = true ∨ hasSub m b = true := by
  induction a with
  | nil =>
    intro h
    rw [List.nil_append, hasSub, Bool.or_eq_true] at h
    rcases h with h | h
    · exact Or.inl (by rw [hasSub]; exact startsWithL_append_cons m [] b c hc h)
    · exact Or.inr h
  | cons x a' ih =>
    intro h
    rw [List.cons_append, hasSub, Bool.or_eq_true] at h
    rcases h with h | h
    · refine Or.inl ?_
      rw [hasSub, Bool.or_eq_true]
      exact Or.inl (startsWithL_append_cons m (x :: a') b c hc h)
    · rcases ih h with h' | h'
      · refine Or.inl ?_
        rw [hasSub, Bool.or_eq_true]
        exact Or.inr h'
      · exact Or.inr h'

/-! ## Helper lemmas: sentence splitting and the conclusion window -/

theorem upperStr_joinSpace (parts : List (List Char)) :
    upperStr (joinSpace parts) = joinSpace (parts.map upperStr) := by
  induction parts with
  | nil => rfl
  | cons a rest ih =>
    cases rest with
    | nil => rfl
    | cons b t =>
      show upperStr (a ++ ' ' :: joinSpace (b :: t)) =
        upperStr a ++ ' ' :: joinSpace ((b :: t).map upperStr)
      rw [← ih]
      simp [upperStr]

theorem hasSub_joinSpace {m : List Char} (hm : m ≠ []) (hsp : ' ' ∉ m) :
    ∀ parts, hasSub m (joinSpace parts) = true →
      ∃ part ∈ parts, hasSub m part = true := by
  intro parts
  induction parts with
  | nil =>
    intro h
    rw [joinSpace, hasSub] at h
    cases m with
    | nil => exact absurd rfl hm
    | cons x ms => simp [startsWithL] at h
  | cons a rest ih =>
    cases rest with
    | nil =>
      intro h
      exact ⟨a, List.mem_singleton_self a, h⟩
    | cons b t =>
      intro h
      rw [show joinSpace (a :: b :: t) = a ++ ' ' :: joinSpace (b :: t) from rfl] at h
      rcases hasSub_append_cons hsp h with h' | h'
      · exact ⟨a, List.mem_cons_self a (b :: t), h'⟩
      · rcases ih h' with ⟨part, hmem, hp⟩
        exact ⟨part, List.mem_cons_of_mem a hmem, hp⟩

theorem pySplit_ne_nil (p : Char → Bool) (l : List Char) : pySplit p l ≠ [] := by
  cases l with
  | nil => simp [pySplit]
  | cons c cs =>
    rw [pySplit]
    by_cases hp : p c
    · simp [hp]
    · simp only [hp, if_neg, Bool.false_eq_true, ite_false]
      cases pySplit p cs <;> simp

theorem pySplit_head_prefix (p : Char → Bool) :
    ∀ (l t : List Char) (ts : List (List Char)),
      pySplit p l = t :: ts → t <+: l := by
  intro l
  induction l with
  | nil =>
    intro t ts h
    rw [pySplit] at h
    injection h with h1 _
    exact h1 ▸ List.nil_prefix
  | cons c cs ih =>
    intro t ts h
    rw [pySplit] at h
    by_cases hp : p c
    · rw [if_pos hp] at h
      injection h with h1 _
      exact h1 ▸ List.nil_prefix
    · rw [if_neg hp] at h
      rcases he : pySplit p cs with _ | ⟨t', ts'⟩
      · exact absurd he (pySplit_ne_nil p cs)
      · rw [he] at h
        injection h with h1 _
        subst h1
        rcases ih t' ts' he with ⟨u, hu⟩
        exact ⟨u, by rw [List.cons_append, hu]⟩

theorem pySplit_parts (p : Char → Bool) :
    ∀ (l : List Char) (part : List Char),
      part ∈ pySplit p l → part <:+: l := by
  intro l
  induction l with
  | nil =>
    intro part h
    rw [pySplit, List.mem_singleton] at h
    exact h ▸ List.nil_infix
  | cons c cs ih =>
    intro part h
    rw [pySplit] at h
    by_cases hp : p c
    · rw [if_pos hp, List.mem_cons] at h
      rcases h with rfl | h
      · exact List.nil_infix
      · exact List.infix_cons (ih part h)
    · rw [if_neg hp] at h
      rcases he : pySplit p cs with _ | ⟨t', ts'⟩
      · exact absurd he (pySplit_ne_nil p cs)
      · rw [he, List.mem_cons] at h
        rcases h with rfl | h
        · have hpre : t' <+: cs := pySplit_head_prefix p cs t' ts' he
          rcases hpre with ⟨u, hu⟩
          exact ⟨[], u, by rw [List.nil_append, List.cons_append, hu]⟩
        · exact List.infix_cons (ih part (he ▸ List.mem_cons_of_mem t' h))

theorem conclusionWindow_marker {m s : List Char} (hm : m ≠ []) (hsp : ' ' ∉ m)
    (h : hasSub m (conclusionWindow s) = true) : hasSub m (upperStr s) = true := by
  unfold conclusionWindow at h
  rw [upperStr_joinSpace] at h
  obtain ⟨pu, hpu, hmp⟩ := hasSub_joinSpace hm hsp _ h
  rw [List.mem_map] at hpu
  obtain ⟨part, hpart, rfl⟩ := hpu
  have hsent : part ∈ pySplit isSentenceSep s := by
    revert hpart
    split
    · intro hpart
      exact List.drop_subset _ _ hpart
    · intro hpart
      exact hpart
  have hinf : part <:+: s := pySplit_parts isSentenceSep s part hsent
  exact hasSub_of_sub (upperStr_mono hinf) hmp

/-! ## Helper lemmas: the extractor's merge -/

theorem stepExec_sql (jp : List Char → Option Jv) (st : Extracted)
    (c : List Char) : (stepExec jp st c).sql = st.sql := by
  unfold stepExec
  repeat' split
  all_goals rfl

theorem stepValid_sql (st : Extracted) (c : List Char) :
    (stepValid st c).sql = st.sql := by
  unfold stepValid
  repeat' split
  all_goals rfl

theorem stepErr_sql (st : Extracted) (c : List Char) :
    (stepErr st c).sql = st.sql := by
  unfold stepErr
  repeat' split
  all_goals rfl

theorem stepSql_sql (st : Extracted) (c : List Char) :
    (stepSql st c).sql =
      match st.sql with
      | some v => some v
      | none => msgSql c := by
  unfold stepSql
  repeat' split
  all_goals simp_all

theorem stepMsg_sql (jp : List Char → Option Jv) (st : Extracted) (m : Msg) :
    (stepMsg jp st m).sql =
      match st.sql with
      | some v => some v
      | none => msgSql m.content := by
  unfold stepMsg
  rw [stepErr_sql, stepValid_sql, stepExec_sql, stepSql_sql]

theorem foldl_stepMsg_sql (jp : List Char → Option Jv) :
    ∀ (hist : List Msg) (st : Extracted),
      (List.foldl (stepMsg jp) st hist).sql =
        match st.sql with
        | some v => some v
        | none => hist.findSome? fun m => msgSql m.content := by
  intro hist
  induction hist with
  | nil =>
    intro st
    cases hs : st.sql <;> simp [hs]
  | cons m t ih =>
    intro st
    rw [List.foldl_cons, ih, stepMsg_sql]
    cases hs : st.sql with
    | none =>
      simp only []
      cases hm : msgSql m.content <;>
        simp [List.findSome?_cons, hm]
    | some v => simp

/-- The SQL field of the merged result is the first per-message extraction
that succeeds, in history order. -/
theorem extract_sql_first (jp : List Char → Option Jv) (hist : List Msg) :
    (_extract_results jp hist).sql =
      hist.findSome? fun m => msgSql m.content := by
  unfold _extract_results
  rw [foldl_stepMsg_sql]
  rfl

/-- Appending further messages never changes an already-found SQL field. -/
theorem extract_sql_stable (jp : List Char → Option Jv) (h1 h2 : List Msg)
    (hfound : (_extract_results jp h1).sql ≠ none) :
    (_extract_results jp (h1 ++ h2)).sql = (_extract_results jp h1).sql := by
  rw [extract_sql_first, extract_sql_first] at *
  rw [List.findSome?_append]
  rcases hf : List.findSome? (fun m => msgSql m.content) h1 with _ | v
  · exact absurd hf hfound
  · rw [hf]
    rfl

/-! ## Helper lemmas: the validation-status field -/

theorem stepSql_vstat (st : Extracted) (c : List Char) :
    (stepSql st c).validation_status = st.validation_status := by
  unfold stepSql
  repeat' split
  all_goals rfl

theorem stepExec_vstat (jp : List Char → Option Jv) (st : Extracted)
    (c : List Char) :
    (stepExec jp st c).validation_status = st.validation_status := by
  unfold stepExec
  repeat' split
  all_goals rfl

theorem stepErr_vstat (st : Extracted) (c : List Char) :
    (stepErr st c).validation_status = st.validation_status := by
  unfold stepErr
  repeat' split
  all_goals rfl

/-- What the validation field can hold after one message. -/
theorem stepValid_vstat (st : Extracted) (c : List Char) :
    (stepValid st c).validation_status = st.validation_status ∨
      (stepValid st c).validation_status = some "PASS".toList ∨
      (stepValid st c).validation_status = some "FAIL".toList := by
  unfold stepValid
  split
  · exact Or.inl rfl
  · split
    · exact Or.inl rfl
    · rename_i pf g2 heq
      repeat' split
      all_goals simp

theorem foldl_stepMsg_vstat (jp : List Char → Option Jv) :
    ∀ (hist : List Msg) (st : Extracted),
      (st.validation_status = none ∨ st.validation_status = some "PASS".toList ∨
          st.validation_status = some "FAIL".toList) →
        ((List.foldl (stepMsg jp) st hist).validation_status = none ∨
          (List.foldl (stepMsg jp) st hist).validation_status = some "PASS".toList ∨
          (List.foldl (stepMsg jp) st hist).validation_status = some "FAIL".toList) := by
  intro hist
  induction hist with
  | nil => intro st h; exact h
  | cons m t ih =>
    intro st h
    rw [List.foldl_cons]
    apply ih
    unfold stepMsg
    rw [stepErr_vstat]
    rcases stepValid_vstat (stepExec jp (stepSql st m.content) m.content)
        m.content with h' | h' | h'
    · rw [h', stepExec_vstat, stepSql_vstat]
      exact h
    · exact Or.inr (Or.inl h')
    · exact Or.inr (Or.inr h')

/-- The extractor can only record `PASS` or `FAIL` as a validation status
(or leave it unset). -/
theorem extract_vstat (jp : List Char → Option Jv) (hist : List Msg) :
    (_extract_results jp hist).validation_status = none ∨
      (_extract_results jp hist).validation_status = some "PASS".toList ∨
      (_extract_results jp hist).validation_status = some "FAIL".toList :=
  foldl_stepMsg_vstat jp hist initExtracted (Or.inl rfl)

/-! ## Helper lemmas: the round bound of the chat driver -/

theorem runChatAux_length (outputs : Nat → Agent → List Char) :
    ∀ (fuel : Nat) (msgs : List Msg) (sender : Agent),
      (runChatAux outputs fuel msgs sender).length ≤ msgs.length + fuel := by
  intro fuel
  induction fuel with
  | zero =>
    intro msgs sender
    rw [runChatAux]
    omega
  | succ f ih =>
    intro msgs sender
    rw [runChatAux]
    cases hsel : select_next_speaker msgs sender with
    | none => exact Nat.le_add_right msgs.length (f + 1)
    | some a =>
      have h2 := ih (msgs ++ [⟨a, outputs msgs.length a⟩]) a
      simp only [List.length_append, List.length_singleton] at h2
      exact Nat.le_trans h2 (by omega)

/-! ## A declarative reading of the Selector's SQL pattern -/

/-- The Selector's pattern, stated declaratively: somewhere in the text an
opening fence, an optional `sql` tag, a whitespace run, the `select`
keyword, and a closing fence later on. -/
def FencedSelect (l : List Char) : Prop :=
  ∃ (a tag w rest : List Char),
    l = a ++ ("```".toList ++ (tag ++ (w ++ ("select".toList ++ rest)))) ∧
      (tag = [] ∨ tag = "sql".toList) ∧
      (∀ c ∈ w, isWS c = true) ∧
      "```".toList <:+: rest

theorem dropWhile_append_all {p : Char → Bool} {w x : List Char}
    (hw : ∀ c ∈ w, p c = true) : (w ++ x).dropWhile p = x.dropWhile p := by
  induction w with
  | nil => rfl
  | cons c cs ih =>
    rw [List.cons_append, List.dropWhile_cons, if_pos (hw c (List.mem_cons_self c cs))]
    exact ih fun d hd => hw d (List.mem_cons_of_mem c hd)

theorem fenceTail_iff (l : List Char) :
    fenceTail l = true ↔
      ∃ (w rest : List Char),
        l = w ++ ("select".toList ++ rest) ∧ (∀ c ∈ w, isWS c = true) ∧
          "```".toList <:+: rest := by
  constructor
  · intro h
    rw [fenceTail, Bool.and_eq_true] at h
    obtain ⟨hsel, hticks⟩ := h
    rw [startsWithL_iff] at hsel
    obtain ⟨t, ht⟩ := hsel
    refine ⟨l.takeWhile isWS, t, ?_, ?_, ?_⟩
    · rw [ht]
      exact (List.takeWhile_append_dropWhile isWS l).symm
    · intro c hc
      exact List.mem_takeWhile_imp hc
    · rw [← hasSub_iff]
      have hdrop : (l.dropWhile isWS).drop 6 = t := by
        rw [← ht]
        rfl
      rw [← hdrop]
      exact hticks
  · rintro ⟨w, rest, rfl, hw, hticks⟩
    rw [fenceTail, Bool.and_eq_true]
    have hdw : ((w ++ ("select".toList ++ rest)).dropWhile isWS) =
        "select".toList ++ rest := by
      rw [dropWhile_append_all hw]
      rfl
    constructor
    · rw [hdw, startsWithL_iff]
      exact ⟨rest, rfl⟩
    · rw [hdw]
      have hr : ("select".toList ++ rest).drop 6 = rest := rfl
      rw [hr, hasSub_iff]
      exact hticks

theorem fenceBody_iff (l : List Char) :
    fenceBody l = true ↔
      ∃ (tag w rest : List Char),
        l = tag ++ (w ++ ("select".toList ++ rest)) ∧
          (tag = [] ∨ tag = "sql".toList) ∧ (∀ c ∈ w, isWS c = true) ∧
          "```".toList <:+: rest := by
  constructor
  · intro h
    rw [fenceBody, Bool.or_eq_true, Bool.and_eq_true] at h
    rcases h with h | ⟨hsql, htail⟩
    · obtain ⟨w, rest, hdec, hw, hticks⟩ := (fenceTail_iff l).mp h
      exact ⟨[], w, rest, by rw [List.nil_append]; exact hdec, Or.inl rfl, hw, hticks⟩
    · rw [startsWithL_iff] at hsql
      obtain ⟨r, hr⟩ := hsql
      have hdrop : l.drop 3 = r := by
        rw [← hr]
        rfl
      rw [hdrop] at htail
      obtain ⟨w, rest, hdec, hw, hticks⟩ := (fenceTail_iff r).mp htail
      refine ⟨"sql".toList, w, rest, ?_, Or.inr rfl, hw, hticks⟩
      rw [← hr, hdec]
  · rintro ⟨tag, w, rest, rfl, htag, hw, hticks⟩
    rw [fenceBody, Bool.or_eq_true, Bool.and_eq_true]
    rcases htag with rfl | rfl
    · exact Or.inl ((fenceTail_iff _).mpr ⟨w, rest, by rw [List.nil_append], hw, hticks⟩)
    · refine Or.inr ⟨?_, ?_⟩
      · rw [startsWithL_iff]
        exact ⟨w ++ ("select".toList ++ rest), rfl⟩
      · exact (fenceTail_iff _).mpr ⟨w, rest, rfl, hw, hticks⟩

theorem hasSqlFence_iff (l : List Char) :
    hasSqlFence l = true ↔ FencedSelect l := by
  induction l with
  | nil =>
    constructor
    · intro h
      exact absurd h (by simp [hasSqlFence])
    · rintro ⟨a, tag, w, rest, heq, _, _, _⟩
      exact absurd heq.symm (by simp)
  | cons c cs ih =>
    rw [hasSqlFence, Bool.or_eq_true, Bool.and_eq_true]
    constructor
    · rintro (⟨hsw, hbody⟩ | h)
      · rw [startsWithL_iff] at hsw
        obtain ⟨d, hd⟩ := hsw
        have hdrop : (c :: cs).drop 3 = d := by
          rw [← hd]
          rfl
        rw [hdrop] at hbody
        obtain ⟨tag, w, rest, hdec, htag, hw, hticks⟩ := (fenceBody_iff d).mp hbody
        refine ⟨[], tag, w, rest, ?_, htag, hw, hticks⟩
        rw [List.nil_append, ← hd, hdec]
      · obtain ⟨a, tag, w, rest, hdec, htag, hw, hticks⟩ := ih.mp h
        refine ⟨c :: a, tag, w, rest, ?_, htag, hw, hticks⟩
        rw [List.cons_append, ← hdec]
    · rintro ⟨a, tag, w, rest, hdec, htag, hw, hticks⟩
      cases a with
      | nil =>
        rw [List.nil_append] at hdec
        refine Or.inl ⟨?_, ?_⟩
        · rw [startsWithL_iff]
          exact ⟨tag ++ (w ++ ("select".toList ++ rest)), hdec.symm⟩
        · have hdrop : (c :: cs).drop 3 = tag ++ (w ++ ("select".toList ++ rest)) := by
            rw [hdec]
            rfl
          rw [hdrop]
          exact (fenceBody_iff _).mpr ⟨tag, w, rest, rfl, htag, hw, hticks⟩
      | cons x a' =>
        rw [List.cons_append] at hdec
        injection hdec with _ h2
        exact Or.inr (ih.mpr ⟨a', tag, w, rest, h2, htag, hw, hticks⟩)

/-! ## Helper lemmas: the direct-execution fallback -/

theorem directFallback_question (env : Env) (q : List Char) (r : RunResult) :
    (directFallback env q r).1.question = r.question := by
  unfold directFallback
  repeat' (first | split | dsimp only)

theorem directFallback_vstat (env : Env) (q : List Char) (r : RunResult) :
    (directFallback env q r).1.validation_status = r.validation_status ∨
      (directFallback env q r).1.validation_status = "PASS".toList := by
  unfold directFallback
  repeat' (first | split | dsimp only)
  all_goals simp

/-! ## Helper lemmas: the execution/raw fields of the extractor -/

theorem stepSql_exec (st : Extracted) (c : List Char) :
    (stepSql st c).execution_results = st.execution_results := by
  unfold stepSql
  repeat' split
  all_goals rfl

theorem stepSql_raw (st : Extracted) (c : List Char) :
    (stepSql st c).raw_output = st.raw_output := by
  unfold stepSql
  repeat' split
  all_goals rfl

theorem stepValid_exec (st : Extracted) (c : List Char) :
    (stepValid st c).execution_results = st.execution_results := by
  unfold stepValid
  repeat' split
  all_goals rfl

theorem stepValid_raw (st : Extracted) (c : List Char) :
    (stepValid st c).raw_output = st.raw_output := by
  unfold stepValid
  repeat' split
  all_goals rfl

theorem stepErr_exec (st : Extracted) (c : List Char) :
    (stepErr st c).execution_results = st.execution_results := by
  unfold stepErr
  repeat' split
  all_goals rfl

theorem stepErr_raw (st : Extracted) (c : List Char) :
    (stepErr st c).raw_output = st.raw_output := by
  unfold stepErr
  repeat' split
  all_goals rfl

/-! ## Claim C5 — Validator routing -/

/-- C5: for every conversation whose last message is the Validator's turn,
the Selector terminates (returns no next speaker) when the message contains
the `VALIDATION: PASS` marker; when it instead contains `VALIDATION: FAIL`,
or contains neither marker (verdict unknown), the Selector routes to the
Repairer. -/
theorem C5_validator_routing (prev : List Msg) (m : Msg) :
    (hasSub "validation: pass".toList (lowerStr m.content) = true →
        select_next_speaker (prev ++ [m]) Agent.validator = none) ∧
      (hasSub "validation: pass".toList (lowerStr m.content) = false →
          hasSub "validation: fail".toList (lowerStr m.content) = true →
          select_next_speaker (prev ++ [m]) Agent.validator = some Agent.repair) ∧
      (hasSub "validation: pass".toList (lowerStr m.content) = false →
          hasSub "validation: fail".toList (lowerStr m.content) = false →
          select_next_speaker (prev ++ [m]) Agent.validator = some Agent.repair) := by
  have hlast : (prev ++ [m]).getLast? = some m := by
    rw [List.getLast?_concat]
  refine ⟨fun hp => ?_, fun hp hf => ?_, fun hp hf => ?_⟩ <;>
    · unfold select_next_speaker
      rw [hlast]
      simp only [lowerStr_idem]
      simp_all

/-- Witness for C5 at concrete Validator messages. -/
theorem C5_validator_routing_witness :
    select_next_speaker
        [⟨Agent.user, []⟩, ⟨Agent.validator, "VALIDATION: PASS".toList⟩]
        Agent.validator = none ∧
      select_next_speaker
          [⟨Agent.user, []⟩, ⟨Agent.validator, "VALIDATION: FAIL".toList⟩]
          Agent.validator = some Agent.repair ∧
      select_next_speaker
          [⟨Agent.user, []⟩, ⟨Agent.validator, "The result is unclear.".toList⟩]
          Agent.validator = some Agent.repair := by
  refine ⟨?_, ?_, ?_⟩
  · exact (C5_validator_routing [⟨Agent.user, []⟩]
      ⟨Agent.validator, "VALIDATION: PASS".toList⟩).1 (by decide)
  · exact (C5_validator_routing [⟨Agent.user, []⟩]
      ⟨Agent.validator, "VALIDATION: FAIL".toList⟩).2.1 (by decide) (by decide)
  · exact (C5_validator_routing [⟨Agent.user, []⟩]
      ⟨Agent.validator, "The result is unclear.".toList⟩).2.2 (by decide) (by decide)

/-! ## Claim C6 — Generator routing -/

/-- C6 counterexample: the claim ties the Selector's Executor branch to the
*extraction rules*, but the Selector uses its own fenced pattern.  The
message `SQL QUERY: SELECT name FROM country` is SQL for the extraction
rules, yet routes to the Interpreter; conversely `\x60\x60\x60select 1\x60\x60\x60` matches no
extraction rule (extraction is case-sensitive) yet routes to the
Executor. -/
theorem C6_counterexample :
    (msgSql "SQL QUERY: SELECT name FROM country".toList =
        some "SELECT name FROM country".toList) ∧
      select_next_speaker
          [⟨Agent.user, []⟩,
           ⟨Agent.generator, "SQL QUERY: SELECT name FROM country".toList⟩]
          Agent.generator = some Agent.interpreter ∧
      msgSql "```select 1```".toList = none ∧
      select_next_speaker
          [⟨Agent.user, []⟩, ⟨Agent.generator, "```select 1```".toList⟩]
          Agent.generator = some Agent.executor := by
  refine ⟨by decide, by decide, by decide, by decide⟩

/-- C6 (amended): with the Generator as last speaker, the Selector returns
the Executor exactly when the lowercased message contains a fenced `select`
block (the Selector's own pattern, not the extractor's rule list); in every
other case — in particular for messages with no SQL-like text — it returns
the Interpreter, and the choice is a pure function of the transcript. -/
theorem C6_generator_routing (msgs : List Msg) (m : Msg) :
    (FencedSelect (lowerStr m.content) →
        select_next_speaker (msgs ++ [m]) Agent.generator =
          some Agent.executor) ∧
      (¬FencedSelect (lowerStr m.content) →
        select_next_speaker (msgs ++ [m]) Agent.generator =
          some Agent.interpreter) := by
  have hlast : (msgs ++ [m]).getLast? = some m := by
    rw [List.getLast?_concat]
  constructor
  · intro hF
    unfold select_next_speaker
    rw [hlast]
    simp only []
    rw [if_pos ((hasSqlFence_iff _).mpr hF)]
  · intro hF
    unfold select_next_speaker
    rw [hlast]
    simp only []
    rw [if_neg fun hb => hF ((hasSqlFence_iff _).mp hb)]

/-- Witness for C6 at concrete Generator messages. -/
theorem C6_generator_routing_witness :
    select_next_speaker
        [⟨Agent.user, []⟩, ⟨Agent.generator, "```sql\nSELECT 1\n```".toList⟩]
        Agent.generator = some Agent.executor ∧
      select_next_speaker
          [⟨Agent.user, []⟩, ⟨Agent.generator, "no query yet".toList⟩]
          Agent.generator = some Agent.interpreter := by
  constructor
  · exact (C6_generator_routing [⟨Agent.user, []⟩]
      ⟨Agent.generator, "```sql\nSELECT 1\n```".toList⟩).1
      ⟨[], "sql".toList, ['\n'], " 1\n```".toList, by decide, Or.inr rfl,
        by decide, by decide⟩
  · exact (C6_generator_routing [⟨Agent.user, []⟩]
      ⟨Agent.generator, "no query yet".toList⟩).2
      fun hF => absurd ((hasSqlFence_iff _).mpr hF) (by decide)

/-! ## Claim C2 — first-match-wins extraction -/

/-- The two-message history of the C2 counterexample: an early fenced SQL
block, then a message explicitly tagged as a repair update. -/
def histC2 : List Msg :=
  [⟨Agent.generator, "```sql\nSELECT 1\n```".toList⟩,
   ⟨Agent.repair, "REPAIRED SQL QUERY: SELECT 2".toList⟩]

/-- C2 counterexample: the second message is explicitly tagged as a repair
update and on its own would extract `SELECT 2`, yet the merged result keeps
the first message's `SELECT 1` — the claimed "repair update wins" exception
does not exist in the code. -/
theorem C2_counterexample :
    msgSql "REPAIRED SQL QUERY: SELECT 2".toList = some "SELECT 2".toList ∧
      (_extract_results jsonDemo histC2).sql = some "SELECT 1".toList := by
  refine ⟨by decide, by decide⟩

/-- C2 (amended): the merge is first-match-wins per field without
exception: the extracted SQL is the first per-message match in history
order, and once set it is never replaced by any later message — not even by
one tagged as a repair update. -/
theorem C2_first_match_wins :
    (∀ (jp : List Char → Option Jv) (hist : List Msg),
        (_extract_results jp hist).sql =
          hist.findSome? fun m => msgSql m.content) ∧
      ∀ (jp : List Char → Option Jv) (h1 h2 : List Msg),
        (_extract_results jp h1).sql ≠ none →
          (_extract_results jp (h1 ++ h2)).sql = (_extract_results jp h1).sql :=
  ⟨extract_sql_first, extract_sql_stable⟩

/-- Witness for C2 on the concrete two-message history. -/
theorem C2_first_match_wins_witness :
    (_extract_results jsonDemo (histC2.take 1 ++ histC2.drop 1)).sql =
      (_extract_results jsonDemo (histC2.take 1)).sql :=
  C2_first_match_wins.2 jsonDemo (histC2.take 1) (histC2.drop 1) (by decide)

/-! ## Claim C7 — the hard round bound -/

/-- C7 (amended): no run ever exceeds `MAX_CONSECUTIVE_AUTO_REPLY` (10)
rounds, whatever text the roles produce — the group chat is created with
`max_round = MAX_CONSECUTIVE_AUTO_REPLY` and simply stops there.  (No
`FailedError` transition and no "round limit exceeded" error text exists;
see the counterexample.) -/
theorem C7_round_bound (outputs : Nat → Agent → List Char) (q : List Char) :
    (runChat outputs q).length ≤ MAX_CONSECUTIVE_AUTO_REPLY := by
  have h := runChatAux_length outputs (MAX_CONSECUTIVE_AUTO_REPLY - 1)
    [⟨Agent.user, initial_message q⟩] Agent.user
  rw [runChat]
  simp only [List.length_singleton, MAX_CONSECUTIVE_AUTO_REPLY] at h ⊢
  omega

/-- The role outputs of the C7 counterexample run: the Generator never
produces SQL, so the chat loops Interpreter → Schema → Generator until the
round cap cuts it. -/
def outC7 : Nat → Agent → List Char := fun _ a =>
  match a with
  | Agent.interpreter => "Please clarify the question.".toList
  | Agent.schema => "Schema information follows.".toList
  | Agent.generator => "I need more details to write a query.".toList
  | _ => []

/-- The question of the concrete C1/C7 runs. -/
def qDemo : List Char := "What is the population of China?".toList

/-- The environment wrapping the capped C7 conversation. -/
def envC7 : Env :=
  { chat := Except.ok (runChat outC7 qDemo), jp := jsonDemo,
    db_path := "./data/databases".toList, dbExists := false }

set_option maxRecDepth 40000

/-- C7 counterexample: a run that reaches the round cap while the Selector
would still continue; the result carries no "round limit exceeded" error
text — its error message is empty and the verdict is the initial `FAIL`. -/
theorem C7_counterexample :
    (runChat outC7 qDemo).length = MAX_CONSECUTIVE_AUTO_REPLY ∧
      select_next_speaker (runChat outC7 qDemo) Agent.generator =
        some Agent.interpreter ∧
      (process_question envC7 qDemo).1.validation_status = "FAIL".toList ∧
      (process_question envC7 qDemo).1.error_message = none := by
  refine ⟨by decide, by decide, by decide, by decide⟩

/-! ## Claim C1 — the absent repair-attempt bound -/

/-- Role outputs of the C1 run: the Executor always fails, so the
Selector keeps routing to the Repairer. -/
def outC1 : Nat → Agent → List Char := fun _ a =>
  match a with
  | Agent.interpreter => "The question asks for a population count.".toList
  | Agent.schema => "Table country has columns name and population.".toList
  | Agent.generator => "```sql\nselect population from country\n```".toList
  | Agent.executor => "ERROR: no such table x".toList
  | Agent.repair => "REPAIRED SQL QUERY: select 1".toList
  | _ => []

/-- The C1 failing run: a conversation with persistent execution errors. -/
def histC1 : List Msg := runChat outC1 qDemo

/-- C1: the code defines `MAX_REPAIR_ATTEMPTS` but enforces no
repair-attempt bound at all: in the concrete failing run the Selector
routes to the Repairer (twice), no `attempts_used` counter exists anywhere
in the orchestration state, the run ends only because the round cap cuts it
while the Selector would still continue, and the text
`repair attempts exhausted` is produced nowhere — the extracted error is
the executor's message. -/
theorem C1_no_repair_bound :
    MAX_REPAIR_ATTEMPTS = 3 ∧
      histC1.length = MAX_CONSECUTIVE_AUTO_REPLY ∧
      (histC1.filter fun m => m.name == Agent.repair).length = 2 ∧
      select_next_speaker histC1 Agent.generator ≠ none ∧
      (_extract_results jsonDemo histC1).error_message =
        some "no such table x".toList ∧
      (_extract_results jsonDemo histC1).error_message ≠
        some "repair attempts exhausted".toList ∧
      ∀ m ∈ histC1,
        hasSub "repair attempts exhausted".toList (lowerStr m.content) = false := by
  refine ⟨rfl, by decide, by decide, by decide, by decide, by decide, by decide⟩

/-! ## Claim C3 — verdict extraction -/

theorem countMarkers_zero {markers : List (List Char)} {text m : List Char}
    (h : countMarkers markers text = 0) (hm : m ∈ markers) :
    hasSub m text = false := by
  unfold countMarkers at h
  rw [List.length_eq_zero, List.filter_eq_nil] at h
  have := h m hm
  simpa using this

/-- C3 counterexample: a validator response with no marker at all — the
claim says the verdict resolves to `Unknown`, but the source's checker is
Boolean-valued and returns `False` (fail). -/
theorem C3_counterexample :
    _check_validation_verdict "hello".toList = false ∧
      specVerdictClaimed "hello".toList = Verdict.unknown := by
  refine ⟨by decide, by decide⟩

/-- C3 (amended): an explicit `VALIDATION: PASS` marker forces pass and an
explicit `VALIDATION: FAIL` (without a PASS marker) forces fail; absent
markers the checker never answers `Unknown` — with no sentiment marker
anywhere in the text the Boolean verdict is `false` (fail), because the
final tie-break is `pass_count > fail_count`. -/
theorem C3_verdict_resolution :
    (∀ s : List Char,
        hasSub "VALIDATION: PASS".toList (upperStr s) = true →
          _check_validation_verdict s = true) ∧
      (∀ s : List Char,
        hasSub "VALIDATION: PASS".toList (upperStr s) = false →
          hasSub "VALIDATION: FAIL".toList (upperStr s) = true →
          _check_validation_verdict s = false) ∧
      ∀ s : List Char,
        countMarkers pass_markers (upperStr s) = 0 →
        countMarkers fail_markers (upperStr s) = 0 →
        _check_validation_verdict s = false := by
  refine ⟨?_, ?_, ?_⟩
  · intro s hp
    unfold _check_validation_verdict
    simp only []
    rw [hp]
    simp
  · intro s hp hf
    unfold _check_validation_verdict
    simp only []
    rw [hp, hf]
    simp
  · intro s hp hf
    have hvp : hasSub "VALIDATION: PASS".toList (upperStr s) = false := by
      by_contra hcon
      rw [Bool.not_eq_false, hasSub_iff] at hcon
      have hPA : ("PASS".toList : List Char) <:+: upperStr s :=
        List.IsInfix.trans (by decide) hcon
      rw [← hasSub_iff] at hPA
      rw [countMarkers_zero hp (by decide : "PASS".toList ∈ pass_markers)] at hPA
      exact Bool.noConfusion hPA
    have hvf : hasSub "VALIDATION: FAIL".toList (upperStr s) = false := by
      by_contra hcon
      rw [Bool.not_eq_false, hasSub_iff] at hcon
      have hFA : ("FAIL".toList : List Char) <:+: upperStr s :=
        List.IsInfix.trans (by decide) hcon
      rw [← hasSub_iff] at hFA
      rw [countMarkers_zero hf (by decide : "FAIL".toList ∈ fail_markers)] at hFA
      exact Bool.noConfusion hFA
    have hwinp : (pass_markers.any fun m =>
        hasSub m (conclusionWindow s)) = false := by
      rw [List.any_eq_false]
      intro m hm hcon
      have hmark : hasSub m (upperStr s) = true := by
        refine conclusionWindow_marker ?_ ?_ hcon
        · fin_cases hm <;> decide
        · fin_cases hm <;> decide
      rw [countMarkers_zero hp hm] at hmark
      exact Bool.noConfusion hmark
    have hwinf : (fail_markers.any fun m =>
        hasSub m (conclusionWindow s)) = false := by
      rw [List.any_eq_false]
      intro m hm hcon
      have hmark : hasSub m (upperStr s) = true := by
        refine conclusionWindow_marker ?_ ?_ hcon
        · fin_cases hm <;> decide
        · fin_cases hm <;> decide
      rw [countMarkers_zero hf hm] at hmark
      exact Bool.noConfusion hmark
    unfold _check_validation_verdict
    simp only []
    rw [hvp, hvf, hp, hf, hwinp, hwinf]
    simp

/-- Witness for C3 at concrete validator responses. -/
theorem C3_verdict_resolution_witness :
    _check_validation_verdict "VALIDATION: PASS".toList = true ∧
      _check_validation_verdict "VALIDATION: FAIL".toList = false ∧
      _check_validation_verdict "no markers here".toList = false := by
  refine ⟨?_, ?_, ?_⟩
  · exact C3_verdict_resolution.1 "VALIDATION: PASS".toList (by decide)
  · exact C3_verdict_resolution.2.1 "VALIDATION: FAIL".toList (by decide) (by decide)
  · exact C3_verdict_resolution.2.2 "no markers here".toList (by decide) (by decide)

/-! ## Claim C4 — the shape of the returned RunResult -/

theorem chatResult_question (env : Env) (q : List Char) (hist : List Msg) :
    (chatResult env q hist).question = q := rfl

theorem chatResult_vstat (env : Env) (q : List Char) (hist : List Msg) :
    (chatResult env q hist).validation_status = "PASS".toList ∨
      (chatResult env q hist).validation_status = "FAIL".toList := by
  unfold chatResult
  simp only []
  rcases extract_vstat env.jp hist with hv | hv | hv <;> rw [hv] <;> simp

/-- C4 counterexample: a run whose conversation yields nothing extractable
returns the failure verdict with *no* error message — the claim's "on
failure, a populated error message" does not hold. -/
def envC4 : Env :=
  { chat := Except.ok [⟨Agent.interpreter, "I could not analyze this.".toList⟩],
    jp := jsonDemo, db_path := "./data/databases".toList, dbExists := true }

/-- See `envC4`. -/
theorem C4_counterexample :
    (process_question envC4 qDemo).1.validation_status = "FAIL".toList ∧
      (process_question envC4 qDemo).1.error_message = none := by
  refine ⟨by decide, by decide⟩

/-- C4 (amended): whatever the collaborators do — the chat may raise, the
extraction may find nothing, execution and repair may fail — the caller
always receives a RunResult echoing the question with a verdict that is
exactly `PASS` or `FAIL`; but a failed run is not guaranteed a populated
error message (see the counterexample). -/
theorem C4_run_result (env : Env) (q : List Char) :
    (process_question env q).1.question = q ∧
      ((process_question env q).1.validation_status = "PASS".toList ∨
        (process_question env q).1.validation_status = "FAIL".toList) := by
  unfold process_question
  rcases hchat : env.chat with e | hist <;> simp only [hchat]
  · exact ⟨trivial, Or.inr trivial⟩
  · constructor
    · rw [directFallback_question, chatResult_question]
    · rcases directFallback_vstat env q (chatResult env q hist) with h | h
      · rw [h]
        exact chatResult_vstat env q hist
      · rw [h]
        exact Or.inl rfl

/-! ## Claim C8 — structured vs raw execution payload -/

/-- The two-message history of the C8 counterexample: first a labeled
section that fails to parse, then one that parses. -/
def histC8 : List Msg :=
  [⟨Agent.executor, "EXECUTION RESULTS: apple".toList⟩,
   ⟨Agent.executor, "EXECUTION RESULTS: [1, 2]".toList⟩]

/-- C8 counterexample: across messages the merged result holds *both* a
raw-text payload (from the failed parse, which left the structured field
unset) and a structured payload (from the later successful parse). -/
theorem C8_counterexample :
    (_extract_results jsonDemo histC8).raw_output = some "apple".toList ∧
      (_extract_results jsonDemo histC8).execution_results =
        some (Jv.jarr [Jv.jnum 1, Jv.jnum 2]) := by
  refine ⟨by decide, rfl⟩

/-- How one message updates clean execution fields: the parse outcome
decides which of the two fields is set. -/
theorem stepExec_from_clean (jp : List Char → Option Jv) (st : Extracted)
    (c : List Char) (hex : st.execution_results = none)
    (hraw : st.raw_output = none) :
    (stepExec jp st c).execution_results =
        (match msgExec c with
         | none => none
         | some g => jp (pyStrip g)) ∧
      (stepExec jp st c).raw_output =
        (match msgExec c with
         | none => none
         | some g =>
             match jp (pyStrip g) with
             | some _ => none
             | none => some (pyStrip g)) := by
  unfold stepExec
  rw [hex]
  simp only []
  cases hm : msgExec c with
  | none =>
    simp only [hm]
    exact ⟨hex, hraw⟩
  | some g =>
    simp only [hm]
    cases hj : jp (pyStrip g) with
    | none =>
      simp only [hj]
      rw [hraw]
      simp
    | some v =>
      simp only [hj]
      simp [hraw]

/-- C8 (amended): for a single message the claim holds — when the labeled
section is found, a structured parse is attempted; on parse failure the raw
captured text is stored instead and the structured field stays unset, so
one message never contributes both.  Across messages both fields can end up
set (see the counterexample), because a failed parse leaves the structured
field `None` and the scan continues. -/
theorem C8_exec_payload :
    (∀ (jp : List Char → Option Jv) (m : Msg),
        ¬((_extract_results jp [m]).execution_results ≠ none ∧
          (_extract_results jp [m]).raw_output ≠ none)) ∧
      ∀ (jp : List Char → Option Jv) (m : Msg) (g : List Char),
        msgExec m.content = some g → jp (pyStrip g) = none →
        (_extract_results jp [m]).raw_output = some (pyStrip g) ∧
          (_extract_results jp [m]).execution_results = none := by
  have hsingle : ∀ (jp : List Char → Option Jv) (m : Msg),
      _extract_results jp [m] =
        stepErr (stepValid (stepExec jp (stepSql initExtracted m.content)
          m.content) m.content) m.content := by
    intro jp m
    rfl
  constructor
  · intro jp m hcontra
    obtain ⟨hex, hraw⟩ := hcontra
    have hb := stepExec_from_clean jp (stepSql initExtracted m.content)
      m.content (by rw [stepSql_exec]; rfl) (by rw [stepSql_raw]; rfl)
    rw [hsingle, stepErr_exec, stepValid_exec, hb.1] at hex
    rw [hsingle, stepErr_raw, stepValid_raw, hb.2] at hraw
    rcases hm : msgExec m.content with _ | g
    · simp only [hm] at hex
      exact hex rfl
    · simp only [hm] at hex hraw
      rcases hj : jp (pyStrip g) with _ | v
      · simp only [hj] at hex
        exact hex rfl
      · simp only [hj] at hraw
        exact hraw rfl
  · intro jp m g hg hjp
    have hb := stepExec_from_clean jp (stepSql initExtracted m.content)
      m.content (by rw [stepSql_exec]; rfl) (by rw [stepSql_raw]; rfl)
    constructor
    · rw [hsingle, stepErr_raw, stepValid_raw, hb.2]
      simp only [hg, hjp]
    · rw [hsingle, stepErr_exec, stepValid_exec, hb.1]
      simp only [hg, hjp]

/-- Witness for C8 at a concrete unparsable payload. -/
theorem C8_exec_payload_witness :
    (_extract_results jsonDemo
        [⟨Agent.executor, "EXECUTION RESULTS: apple".toList⟩]).raw_output =
      some "apple".toList ∧
      (_extract_results jsonDemo
          [⟨Agent.executor, "EXECUTION RESULTS: apple".toList⟩]).execution_results =
        none := by
  have h := C8_exec_payload.2 jsonDemo
    ⟨Agent.executor, "EXECUTION RESULTS: apple".toList⟩ "apple".toList
    (by decide) rfl
  exact ⟨by rw [h.1]; rfl, h.2⟩

/-! ## Claim C10 — the fallback never reaches its repair logic -/

/-- The C10 failing input: a conversation whose only substantial message
is a fenced SQL block, so extraction yields SQL but no execution
payload. -/
def histC10 : List Msg := [⟨Agent.generator, "```sql\nSELECT 1\n```".toList⟩]

/-- The environment of the C10 failing input: the chat above, with the
database file present — exactly the entry conditions of the
direct-execution fallback. -/
def envC10 : Env :=
  { chat := Except.ok histC10, jp := jsonDemo,
    db_path := "./data/databases".toList, dbExists := true }

/-- C10: the repair agent is *never* invoked from the direct-execution
fallback — not exactly once.  `execute_sql` and `repair_sql` are
`async def` coroutine functions called without `await`, so on the claimed
path (SQL extracted, no execution payload, database present) the
`.get` lookup on the coroutine raises `AttributeError` before any repair
can happen: the run returns verdict `FAIL` with
`Error: \x27coroutine\x27 object has no attribute \x27get\x27` as the error
message, and the repair-invocation count is 0 on every input. -/
theorem C10_repair_never_invoked :
    (∀ (env : Env) (q : List Char) (r : RunResult),
        (directFallback env q r).2 = 0) ∧
      (process_question envC10 qDemo).2 = 0 ∧
      (process_question envC10 qDemo).1.sql = some "SELECT 1".toList ∧
      (process_question envC10 qDemo).1.validation_status = "FAIL".toList ∧
      (process_question envC10 qDemo).1.error_message =
        some ("Error: ".toList ++ coroutineGetError) := by
  refine ⟨?_, by decide, by decide, by decide, by decide⟩
  intro env q r
  unfold directFallback
  repeat' (first | split | dsimp only)
  all_goals rfl

/-! ## Claim C9 — load_config mutates the module-level defaults -/

/-- The parsed configuration file of the C9 failing input:
`{"llm": {"model": "custom"}}`. -/
def fileC9 : List (List Char × UVal) :=
  [("llm".toList, UVal.udict [("model".toList, UVal.uprim (PVal.pstr "custom".toList))])]

/-- C9: `load_config` starts from a *shallow* `DEFAULT_CONFIG.copy()`, so
`_deep_update` follows the stored references and mutates the module-level
`DEFAULT_CONFIG["llm"]` dict in place: after loading
`{"llm": {"model": "custom"}}`, the defaults' model is `custom`, and a
subsequent `load_config(None)` returns `custom` instead of the original
default — refuting the claimed frame condition on the concrete input. -/
theorem C9_defaults_mutated :
    dictGet (initHeap.getDict llmDefaults_id) "model".toList =
        some (CVal.prim (PVal.pstr "claude-3-7-sonnet-20250219".toList)) ∧
      dictGet (((load_config initHeap (some fileC9)).1).getDict llmDefaults_id)
          "model".toList =
        some (CVal.prim (PVal.pstr "custom".toList)) ∧
      ((let h1 := (load_config initHeap (some fileC9)).1
        let second := load_config h1 none
        match dictGet ((second.1).getDict second.2) "llm".toList with
        | some (CVal.ref i) => dictGet ((second.1).getDict i) "model".toList
        | _ => none) =
        some (CVal.prim (PVal.pstr "custom".toList))) := by
  refine ⟨rfl, rfl, rfl⟩
